import Mathlib

/-!
Shallow embedding of the fee-tracking core of `src/trackFeesLocked.mjs`:
the little-endian wide-integer decoder `u256BytesToBigInt`, the fee
computation `computeUnclaimedTokenB`, the discriminator-based account type
resolution of `decodeIdlAccountUnknown`, and the pool/position role
classification inlined in `processPair`.

JavaScript `BigInt` values are modelled as `Int` (arbitrary precision,
signed); values decoded from unsigned on-chain fields are modelled as `Nat`.
In `computeUnclaimedTokenB` both operands of the single division are
non-negative, so Lean's `Int` division agrees with JavaScript `BigInt`
truncating division on every reachable input.
-/

namespace ScarceFeeTracker

/-- Decoded pool account as read by `computeUnclaimedTokenB`: the
`fee_b_per_liquidity` field (U256 little-endian bytes) plus whatever other
decoded fields the record carries, modelled as an opaque association list. -/
structure PoolState where
  fee_b_per_liquidity : List Nat
  extra : List (String × Nat)
deriving DecidableEq

/-- Decoded position account as read by `computeUnclaimedTokenB`: the three
liquidity components (u128, non-negative), the U256 little-endian checkpoint
bytes, the pending fee amount (u64, non-negative), plus whatever other
decoded fields the record carries. -/
structure PosState where
  unlocked_liquidity : Nat
  vested_liquidity : Nat
  permanent_locked_liquidity : Nat
  fee_b_per_token_checkpoint : List Nat
  fee_b_pending : Nat
  extra : List (String × Nat)
deriving DecidableEq

/-- Source: `const LIQUIDITY_SCALE = 1n << 128n;` (line 62). -/
def LIQUIDITY_SCALE : Int := 2 ^ 128

/-- Source: `u256BytesToBigInt` (lines 93-100).  The JavaScript loop walks
the byte array from the last index down to 0 computing `x = (x << 8n) + b`,
which is a right fold with step `fun b x => x * 256 + b`.  Bytes are
unsigned, so the result is a natural number. -/
def u256BytesToBigInt (bytes : List Nat) : Nat :=
  bytes.foldr (fun b x => x * 256 + b) 0

/-- Source: `computeUnclaimedTokenB` (lines 134-162).  Liquidity is the sum
of the three components; zero liquidity short-circuits to 0; otherwise
`delta = accumulator - checkpoint` clamped at 0, `newlyAccrued =
liquidity * delta / LIQUIDITY_SCALE` (floor division of non-negative
operands), and the result adds the pending field. -/
def computeUnclaimedTokenB (poolState : PoolState) (posState : PosState) : Int :=
  let unlocked : Int := posState.unlocked_liquidity
  let vested : Int := posState.vested_liquidity
  let permanent : Int := posState.permanent_locked_liquidity
  let liquidity := unlocked + vested + permanent
  if liquidity = 0 then 0 else
  let feeBPerLiquidity : Int := u256BytesToBigInt poolState.fee_b_per_liquidity
  let feeBCheckpoint : Int := u256BytesToBigInt posState.fee_b_per_token_checkpoint
  let feeBPending : Int := posState.fee_b_pending
  let delta0 := feeBPerLiquidity - feeBCheckpoint
  let delta := if delta0 < 0 then 0 else delta0
  let newlyAccrued := liquidity * delta / LIQUIDITY_SCALE
  newlyAccrued + feeBPending

/-- Total liquidity of a position, as summed on lines 136-139. -/
def totalLiquidity (posState : PosState) : Nat :=
  posState.unlocked_liquidity + posState.vested_liquidity +
    posState.permanent_locked_liquidity

/-- Raw account info as returned by the chain accessor: the owning program
identity (opaque, modelled as a string) and the account data bytes. -/
structure AccountInfo where
  owner : String
  data : List Nat
deriving DecidableEq

/-- Errors thrown by `decodeIdlAccountUnknown` (the three throw sites on
lines 105, 107-109 and 123-126). -/
inductive DecodeError where
  | accountNotFound
  | ownershipMismatch
  | unknownAccountType
deriving DecidableEq

/-- Source: `decodeIdlAccountUnknown` (lines 103-127).  The registry models
the IDL account list with its precomputed 8-byte discriminators
(`idlAccountDiscriminators`, each the first 8 bytes of a sha256 digest).
The network fetch is modelled as the `Option AccountInfo` argument; the
final `coder.decode` call is out of scope, so the function returns the
matched type name.  `Buffer.compare(x, y) === 0` is exact byte-sequence
equality, including length. -/
def decodeIdlAccountUnknown (programId : String) (registry : List (String × List Nat))
    (info : Option AccountInfo) : Except DecodeError String :=
  match info with
  | none => .error .accountNotFound
  | some info =>
    if info.owner ≠ programId then .error .ownershipMismatch
    else
      let disc := info.data.take 8
      match registry.find? (fun acc => acc.2 == disc) with
      | some acc => .ok acc.1
      | none => .error .unknownAccountType

/-- Decoded record as tested by the role classification in `processPair`:
whether the JavaScript `in` test succeeds for each of the two
role-identifying fields, plus the remaining decoded content of the record
(which makes distinct records distinguishable). -/
structure DecodedRec where
  hasFeeBPerLiquidity : Bool
  hasFeeBPerTokenCheckpoint : Bool
  fields : List (String × Nat)
deriving DecidableEq

/-- Errors thrown by the role classification in `processPair` (the two throw
sites on lines 263-266 and 271-274). -/
inductive RoleError where
  | neitherLooksLikePool
  | missingCheckpoint
deriving DecidableEq

deriving instance DecidableEq for Except

/-- Source: the role classification inlined in `processPair` (lines
258-275).  Start with `(poolState, posState) := (a, b)`; when `a` lacks
`fee_b_per_liquidity`, fail if `b` lacks it too, otherwise swap; finally
fail if the record chosen as position lacks `fee_b_per_token_checkpoint`. -/
def classifyRoles (a b : DecodedRec) : Except RoleError (DecodedRec × DecodedRec) :=
  if !a.hasFeeBPerLiquidity then
    if !b.hasFeeBPerLiquidity then .error .neitherLooksLikePool
    else if a.hasFeeBPerTokenCheckpoint then .ok (b, a)
    else .error .missingCheckpoint
  else if b.hasFeeBPerTokenCheckpoint then .ok (a, b)
  else .error .missingCheckpoint

/-- Characterization of `computeUnclaimedTokenB` by natural-number
arithmetic: the clamped signed subtraction is truncated subtraction on `Nat`
and the division operands are non-negative. -/
theorem computeUnclaimedTokenB_eq_nat (pool : PoolState) (pos : PosState) :
    computeUnclaimedTokenB pool pos =
      (if totalLiquidity pos = 0 then 0 else
        ((totalLiquidity pos *
          (u256BytesToBigInt pool.fee_b_per_liquidity -
            u256BytesToBigInt pos.fee_b_per_token_checkpoint)) / 2 ^ 128 +
          pos.fee_b_pending : Nat) : Int) := by
  obtain ⟨U, V, P, chk, p, e⟩ := pos
  simp only [computeUnclaimedTokenB, totalLiquidity, LIQUIDITY_SCALE]
  generalize u256BytesToBigInt pool.fee_b_per_liquidity = a
  generalize u256BytesToBigInt chk = c
  by_cases h0 : U + V + P = 0
  · rw [if_pos h0, if_pos (show (U : Int) + V + P = 0 by exact_mod_cast h0)]
  · rw [if_neg h0,
      if_neg (show ¬((U : Int) + V + P = 0) from fun h => h0 (by exact_mod_cast h))]
    have hdelta : (if ((a : Int) - c) < 0 then (0 : Int) else (a : Int) - c) =
        ((a - c : Nat) : Int) := by
      split <;> omega
    rw [hdelta]
    push_cast
    ring

/-- Unfolding lemma for the decoder: prepending a byte makes it the least
significant one. -/
theorem u256BytesToBigInt_cons (x : Nat) (xs : List Nat) :
    u256BytesToBigInt (x :: xs) = u256BytesToBigInt xs * 256 + x := rfl

/-- C1 counterexample: a pair with zero liquidity, pending = 500, and
accumulator = checkpoint (both empty byte strings, decoding to 0).  The
claim asserts the result is the pending field (500); the zero-liquidity
short-circuit returns 0 instead. -/
theorem c1_counterexample_zero_liquidity :
    u256BytesToBigInt [] ≤ u256BytesToBigInt [] ∧
    computeUnclaimedTokenB ⟨[], []⟩ ⟨0, 0, 0, [], 500, []⟩ ≠ 500 := by
  exact ⟨Nat.le_refl _, by decide⟩

/-- C1 (amended): for every pair with nonzero total liquidity whose pool
accumulator value is less than or equal to the position checkpoint value,
`computeUnclaimedTokenB` returns exactly the pending field: the delta is
clamped to zero rather than going negative. -/
theorem computeUnclaimed_clamped_returns_pending (pool : PoolState) (pos : PosState)
    (hliq : totalLiquidity pos ≠ 0)
    (hle : u256BytesToBigInt pool.fee_b_per_liquidity ≤
      u256BytesToBigInt pos.fee_b_per_token_checkpoint) :
    computeUnclaimedTokenB pool pos = pos.fee_b_pending := by
  rw [computeUnclaimedTokenB_eq_nat, if_neg hliq, Nat.sub_eq_zero_of_le hle]
  simp

/-- Witness for the amended C1 at a concrete input. -/
theorem computeUnclaimed_clamped_returns_pending_witness :
    computeUnclaimedTokenB ⟨[1], []⟩ ⟨5, 0, 0, [2], 500, []⟩ = 500 :=
  computeUnclaimed_clamped_returns_pending ⟨[1], []⟩ ⟨5, 0, 0, [2], 500, []⟩
    (by decide) (by decide)

/-- C2: whenever the three liquidity components sum to zero,
`computeUnclaimedTokenB` returns 0, for every accumulator, checkpoint and
pending value. -/
theorem computeUnclaimed_zero_liquidity (pool : PoolState) (pos : PosState)
    (h : pos.unlocked_liquidity + pos.vested_liquidity +
      pos.permanent_locked_liquidity = 0) :
    computeUnclaimedTokenB pool pos = 0 := by
  rw [computeUnclaimedTokenB_eq_nat]
  unfold totalLiquidity
  rw [if_pos h]

/-- Witness for C2 at a concrete input with nonzero pending and
accumulator fields. -/
theorem computeUnclaimed_zero_liquidity_witness :
    computeUnclaimedTokenB ⟨[9], []⟩ ⟨0, 0, 0, [3], 77, []⟩ = 0 :=
  computeUnclaimed_zero_liquidity ⟨[9], []⟩ ⟨0, 0, 0, [3], 77, []⟩ (by decide)

/-- C4: for a fixed position record, `computeUnclaimedTokenB` is
monotonically non-decreasing in the pool accumulator value. -/
theorem computeUnclaimed_monotone_in_accumulator (pos : PosState)
    (pool1 pool2 : PoolState)
    (h : u256BytesToBigInt pool1.fee_b_per_liquidity ≤
      u256BytesToBigInt pool2.fee_b_per_liquidity) :
    computeUnclaimedTokenB pool1 pos ≤ computeUnclaimedTokenB pool2 pos := by
  rw [computeUnclaimedTokenB_eq_nat, computeUnclaimedTokenB_eq_nat]
  by_cases h0 : totalLiquidity pos = 0
  · rw [if_pos h0, if_pos h0]
  · rw [if_neg h0, if_neg h0]
    have hmono :
        totalLiquidity pos * (u256BytesToBigInt pool1.fee_b_per_liquidity -
          u256BytesToBigInt pos.fee_b_per_token_checkpoint) / 2 ^ 128 +
          pos.fee_b_pending ≤
        totalLiquidity pos * (u256BytesToBigInt pool2.fee_b_per_liquidity -
          u256BytesToBigInt pos.fee_b_per_token_checkpoint) / 2 ^ 128 +
          pos.fee_b_pending := by
      gcongr
    exact_mod_cast hmono

/-- Witness for C4 at concrete accumulators 1 and 3. -/
theorem computeUnclaimed_monotone_in_accumulator_witness :
    computeUnclaimedTokenB ⟨[1], []⟩ ⟨5, 0, 0, [0], 500, []⟩ ≤
      computeUnclaimedTokenB ⟨[3], []⟩ ⟨5, 0, 0, [0], 500, []⟩ :=
  computeUnclaimed_monotone_in_accumulator ⟨5, 0, 0, [0], 500, []⟩
    ⟨[1], []⟩ ⟨[3], []⟩ (by decide)

/-- C5: end-to-end scenario.  With the pool accumulator the 32-byte
little-endian encoding of 2·2^128, the checkpoint the encoding of 1·2^128,
total liquidity 1,000,000 and pending 500, the decoded delta is 2^128, so
newlyAccrued = 1,000,000·2^128/2^128 = 1,000,000 and the total is
1,000,500 raw units. -/
theorem computeUnclaimed_end_to_end :
    u256BytesToBigInt (List.replicate 16 0 ++ 2 :: List.replicate 15 0) =
      2 * 2 ^ 128 ∧
    u256BytesToBigInt (List.replicate 16 0 ++ 1 :: List.replicate 15 0) =
      1 * 2 ^ 128 ∧
    computeUnclaimedTokenB
      ⟨List.replicate 16 0 ++ 2 :: List.replicate 15 0, []⟩
      ⟨1000000, 0, 0, List.replicate 16 0 ++ 1 :: List.replicate 15 0, 500, []⟩ =
      1000500 := by
  refine ⟨by decide, by decide, ?_⟩
  rw [computeUnclaimedTokenB_eq_nat]
  decide

/-- C8: `computeUnclaimedTokenB` returns a non-negative integer on every
input of the model (liquidity components, pending field and decoded byte
values are unsigned). -/
theorem computeUnclaimed_nonneg (pool : PoolState) (pos : PosState) :
    0 ≤ computeUnclaimedTokenB pool pos := by
  rw [computeUnclaimedTokenB_eq_nat]
  split
  · exact le_refl 0
  · exact Int.natCast_nonneg _

/-- C9: the result of `computeUnclaimedTokenB` depends only on the six
fields it reads; records agreeing on those fields give equal results
whatever other fields they carry. -/
theorem computeUnclaimed_depends_only_on_read_fields
    (pool1 pool2 : PoolState) (pos1 pos2 : PosState)
    (hpool : pool1.fee_b_per_liquidity = pool2.fee_b_per_liquidity)
    (h1 : pos1.unlocked_liquidity = pos2.unlocked_liquidity)
    (h2 : pos1.vested_liquidity = pos2.vested_liquidity)
    (h3 : pos1.permanent_locked_liquidity = pos2.permanent_locked_liquidity)
    (h4 : pos1.fee_b_per_token_checkpoint = pos2.fee_b_per_token_checkpoint)
    (h5 : pos1.fee_b_pending = pos2.fee_b_pending) :
    computeUnclaimedTokenB pool1 pos1 = computeUnclaimedTokenB pool2 pos2 := by
  simp only [computeUnclaimedTokenB, hpool, h1, h2, h3, h4, h5]

/-- Witness for C9: two pairs differing only in the extra fields. -/
theorem computeUnclaimed_depends_only_on_read_fields_witness :
    computeUnclaimedTokenB ⟨[7], [("x", 1)]⟩ ⟨1, 2, 3, [4], 5, [("y", 2)]⟩ =
      computeUnclaimedTokenB ⟨[7], []⟩ ⟨1, 2, 3, [4], 5, []⟩ :=
  computeUnclaimed_depends_only_on_read_fields _ _ _ _ rfl rfl rfl rfl rfl rfl

/-- C6: the decoder interprets its input in little-endian order: the value
of a byte sequence b is the sum over i of b[i]·256^i, byte 0 being least
significant. -/
theorem u256BytesToBigInt_le_value (b : List Nat) :
    u256BytesToBigInt b = ∑ i ∈ Finset.range b.length, b.getD i 0 * 256 ^ i := by
  induction b with
  | nil => rfl
  | cons x xs ih =>
    rw [u256BytesToBigInt_cons, ih, List.length_cons, Finset.sum_range_succ']
    simp only [List.getD_cons_succ, List.getD_cons_zero, pow_succ, pow_zero,
      mul_one, ← mul_assoc, ← Finset.sum_mul]

/-- C10: on byte values (each below 256), the decoder returns a value below
2^(8·n) for an input of length n; it is total, always non-negative (the
result lives in Nat), and returns 0 on the empty sequence. -/
theorem u256BytesToBigInt_lt_pow (b : List Nat) (hb : ∀ x ∈ b, x < 256) :
    u256BytesToBigInt b < 2 ^ (8 * b.length) ∧ u256BytesToBigInt [] = 0 := by
  refine ⟨?_, rfl⟩
  induction b with
  | nil => exact Nat.zero_lt_one
  | cons x xs ih =>
    have hx : x < 256 := hb x (List.mem_cons_self x xs)
    have hxs : u256BytesToBigInt xs < 2 ^ (8 * xs.length) :=
      ih fun y hy => hb y (List.mem_cons_of_mem x hy)
    have h1 : (u256BytesToBigInt xs + 1) * 256 ≤ 2 ^ (8 * xs.length) * 256 :=
      Nat.mul_le_mul_right 256 hxs
    have hpow : 2 ^ (8 * (xs.length + 1)) = 2 ^ (8 * xs.length) * 256 := by
      rw [Nat.mul_add, pow_add]
      norm_num
    rw [u256BytesToBigInt_cons, List.length_cons, hpow]
    omega

/-- Witness for C10 at the concrete two-byte input [255, 255]. -/
theorem u256BytesToBigInt_lt_pow_witness :
    u256BytesToBigInt [255, 255] < 2 ^ (8 * 2) ∧ u256BytesToBigInt [] = 0 :=
  u256BytesToBigInt_lt_pow [255, 255] (by decide)

/-- C7: `decodeIdlAccountUnknown` fails with the ownership error whenever
the account owner differs from the program id, whatever the data; when the
owner matches, it fails with the unknown-type error whenever no registered
discriminator equals the first 8 data bytes, and in particular on every
account whose data is shorter than 8 bytes (registered discriminators all
have length 8). -/
theorem decodeIdlAccountUnknown_errors (programId : String)
    (registry : List (String × List Nat)) (info : AccountInfo) :
    (info.owner ≠ programId →
      decodeIdlAccountUnknown programId registry (some info) =
        .error .ownershipMismatch) ∧
    (info.owner = programId →
      (∀ r ∈ registry, r.2 ≠ info.data.take 8) →
      decodeIdlAccountUnknown programId registry (some info) =
        .error .unknownAccountType) ∧
    (info.owner = programId → info.data.length < 8 →
      (∀ r ∈ registry, r.2.length = 8) →
      decodeIdlAccountUnknown programId registry (some info) =
        .error .unknownAccountType) := by
  refine ⟨fun hown => ?_, fun hown hno => ?_, fun hown hshort hlen => ?_⟩
  · rw [decodeIdlAccountUnknown, if_pos hown]
  · rw [decodeIdlAccountUnknown, if_neg (fun h => h hown)]
    have : registry.find? (fun acc => acc.2 == info.data.take 8) = none :=
      List.find?_eq_none.mpr fun r hr => by
        simpa using hno r hr
    simp only [this]
  · rw [decodeIdlAccountUnknown, if_neg (fun h => h hown)]
    have : registry.find? (fun acc => acc.2 == info.data.take 8) = none :=
      List.find?_eq_none.mpr fun r hr => by
        have h8 : (info.data.take 8).length < 8 := by
          rw [List.length_take]
          omega
        have hne : r.2 ≠ info.data.take 8 := fun he => by
          have hl := hlen r hr
          rw [he] at hl
          omega
        simpa using hne
    simp only [this]

/-- Witness for C7: an account owned by another program triggers the
ownership error; an owned account with a two-byte data field matches no
8-byte discriminator and triggers the unknown-type error. -/
theorem decodeIdlAccountUnknown_errors_witness :
    decodeIdlAccountUnknown "prog" [("pool", [1, 2, 3, 4, 5, 6, 7, 8])]
        (some ⟨"other", [1, 2, 3, 4, 5, 6, 7, 8]⟩) =
      .error .ownershipMismatch ∧
    decodeIdlAccountUnknown "prog" [("pool", [1, 2, 3, 4, 5, 6, 7, 8])]
        (some ⟨"prog", [9, 9]⟩) =
      .error .unknownAccountType :=
  ⟨(decodeIdlAccountUnknown_errors "prog" [("pool", [1, 2, 3, 4, 5, 6, 7, 8])]
      ⟨"other", [1, 2, 3, 4, 5, 6, 7, 8]⟩).1 (by decide),
   (decodeIdlAccountUnknown_errors "prog" [("pool", [1, 2, 3, 4, 5, 6, 7, 8])]
      ⟨"prog", [9, 9]⟩).2.2 rfl (by decide) (by decide)⟩

/-- C3 counterexample: when both records expose `fee_b_per_liquidity` (and
both expose the checkpoint field), the classification keeps the argument
order, so swapping the arguments swaps the returned (pool, position)
assignment: the claim fails on this concrete pair. -/
theorem classifyRoles_counterexample :
    classifyRoles ⟨true, true, [("id", 1)]⟩ ⟨true, true, [("id", 2)]⟩ ≠
      classifyRoles ⟨true, true, [("id", 2)]⟩ ⟨true, true, [("id", 1)]⟩ := by
  decide

/-- C3 (amended): for every pair of decoded records of which at most one
exposes `fee_b_per_liquidity`, classification yields the same outcome
(assignment or error) in either argument order: the record exposing the
field becomes the pool and the other the position. -/
theorem classifyRoles_order_independent (a b : DecodedRec)
    (h : ¬(a.hasFeeBPerLiquidity = true ∧ b.hasFeeBPerLiquidity = true)) :
    classifyRoles a b = classifyRoles b a := by
  rcases ha : a.hasFeeBPerLiquidity <;> rcases hb : b.hasFeeBPerLiquidity <;>
    simp_all [classifyRoles]

/-- Witness for the amended C3 at a concrete pool/position pair. -/
theorem classifyRoles_order_independent_witness :
    classifyRoles ⟨true, false, []⟩ ⟨false, true, []⟩ =
      classifyRoles ⟨false, true, []⟩ ⟨true, false, []⟩ :=
  classifyRoles_order_independent ⟨true, false, []⟩ ⟨false, true, []⟩ (by decide)

end ScarceFeeTracker
